import Mathlib

/-!
Verification development for the DS246 legal-KG backend.

We give a shallow embedding, in Lean, of the pure computational parts of the
repository: the `_trim` helper and citation formatting of `Graph_RAG_new.py`,
`rrf_fuse` and the fallback cascade of the retrieval tool, the embedded-document
construction of `Indexing.py`, the severity-score and role-co-occurrence Cypher
passes of `src/06_enrich_graph.py`, the LLM batch-response handling and merge of
`src/04_enrich_llm_hybrid.py`, and the section segmenter of
`src/02_parse_structure.py`.  Python floats are modelled by `ℚ`, Python's `None`
by `Option`, Python/Neo4j dynamic values by small inductive value types.
-/

/-! ### Python string primitives -/

/-- Python's default `str.strip` whitespace set (ASCII part). -/
def isPyWs (c : Char) : Bool :=
  c = ' ' || c = '\t' || c = '\n' || c = '\r' || c = '\x0b' || c = '\x0c'

/-- `str.strip()` on a character list: drop whitespace at both ends. -/
def pyStripList (cs : List Char) : List Char :=
  ((cs.dropWhile isPyWs).reverse.dropWhile isPyWs).reverse

/-- Python `s.strip()`. -/
def pyStrip (s : String) : String := ⟨pyStripList s.data⟩

/-- Python `s[:n]` for a nonnegative bound `n`: the first `n` characters. -/
def pySlice (s : String) (n : Nat) : String := ⟨s.data.take n⟩

/-- Python `len(s)` (number of code points). -/
def pyLen (s : String) : Nat := s.data.length

/-- Truthiness of an optional Python string: `None` and `""` are falsy. -/
def truthyStr (o : Option String) : Bool :=
  match o with
  | none => false
  | some s => s ≠ ""

/-- Truthiness of an optional Python int: `None` and `0` are falsy. -/
def truthyInt (o : Option Int) : Bool :=
  match o with
  | none => false
  | some n => n ≠ 0

/-- Python `a or b` on optional strings: `a` if truthy, else `b`. -/
def pyOrStr (a b : Option String) : Option String :=
  if truthyStr a then a else b

/-! ### `Graph_RAG_new._trim` -/

/-- `_trim(text, max_chars)` from `Graph_RAG_new.py`:
`None` passes through; otherwise strip, and truncate with a marker suffix
when longer than `max_chars`. -/
def pyTrim (text : Option String) (maxChars : Nat) : Option String :=
  match text with
  | none => none
  | some t =>
    let t := pyStrip t
    if pyLen t ≤ maxChars then some t
    else some (pySlice t maxChars ++ " ...[TRUNCATED]...")

/-! ### Citation formatting in `fetch_kg_context_for_sections` -/

/-- The year property of an Act node as it reaches the f-string:
Python renders the int itself. -/
def yearStr (y : Option Int) : String := toString (y.getD 0)

/-- The `formatted_citation` computation from `Graph_RAG_new.py`
(lines 106–111), given the already-resolved `raw_citation`, `act_title`
and `act_year` values. -/
def formattedCitation (rawCitation actTitle : Option String) (actYear : Option Int) :
    Option String :=
  if truthyStr rawCitation && truthyStr actTitle && truthyInt actYear then
    some (rawCitation.getD "" ++ " of " ++ actTitle.getD "" ++ ", " ++
      toString (actYear.getD 0))
  else if truthyStr rawCitation && truthyStr actTitle then
    some (rawCitation.getD "" ++ " of " ++ actTitle.getD "")
  else rawCitation

/-! ### `Indexing.index_sections_into_chroma`: the embedded document -/

/-- One `(a, s)` row of the section-indexing query, flattened: every field the
loop body of `index_sections_into_chroma` reads from the Act and Section
nodes, including the identifier fields that go only to metadata. -/
structure SectionRow where
  sid : Int
  actTitle : Option String
  actName : Option String
  actYear : Option Int
  actNumber : Option String
  sectionId : Option String
  articleId : Option String
  sectionNo : Option String
  citation : Option String
  heading : Option String
  summary : Option String
  text : Option String
  deriving Repr, DecidableEq

/-- The document text embedded for a section (`body` in
`index_sections_into_chroma`): act title, heading, summary and text only. -/
def buildSectionDoc (r : SectionRow) : String :=
  let act_title := (pyOrStr r.actTitle r.actName).getD ""
  let heading := r.heading.getD ""
  let summary := r.summary.getD ""
  let text := r.text.getD ""
  pyStrip (act_title ++ "\n" ++ heading ++ "\n\n" ++ summary ++ "\n\n" ++ text)

/-! ### `Search.rrf_fuse` -/

/-- `scores[sid] += inc` on an insertion-ordered association list
(the behaviour of a Python `defaultdict(float)`): add in place when the key
exists, else append at the end. -/
def rrfUpdate (scores : List (Int × ℚ)) (sid : Int) (inc : ℚ) : List (Int × ℚ) :=
  match scores with
  | [] => [(sid, inc)]
  | (k, v) :: rest =>
    if k = sid then (k, v + inc) :: rest else (k, v) :: rrfUpdate rest sid inc

/-- One `for rank, r in enumerate(results)` loop of `rrf_fuse`, starting at
rank `rank`, adding `1.0 / (k_rrf + rank + 1)` to each result's score. -/
def rrfAdd (kRrf : Nat) : List (Int × ℚ) → List Int → Nat → List (Int × ℚ)
  | scores, [], _ => scores
  | scores, sid :: rest, rank =>
    rrfAdd kRrf (rrfUpdate scores sid (1 / ((kRrf : ℚ) + rank + 1))) rest (rank + 1)

/-- The `scores` dict built by `rrf_fuse`: the vector loop then the lexical
loop, starting from the empty dict. -/
def rrfScores (vec lex : List Int) (kRrf : Nat) : List (Int × ℚ) :=
  rrfAdd kRrf (rrfAdd kRrf [] vec 0) lex 0

/-- Stable descending sort by score, the semantics of
`sorted(scores.items(), key=lambda x: x[1], reverse=True)`. -/
def rrfSorted (vec lex : List Int) (kRrf : Nat) : List (Int × ℚ) :=
  (rrfScores vec lex kRrf).insertionSort (fun a b => b.2 ≤ a.2)

/-- `rrf_fuse` from `Search.py`: fused ids, best first, truncated to `top_k`.
Result entries carry only the section id. -/
def rrf_fuse (vec lex : List Int) (kRrf : Nat) (topK : Nat) : List Int :=
  ((rrfSorted vec lex kRrf).map Prod.fst).take topK

/-- Score looked up in the fused dict (`0` when absent, as for a fresh
`defaultdict(float)` entry). -/
def lookupScore : List (Int × ℚ) → Int → ℚ
  | [], _ => 0
  | (k, v) :: rest, x => if k = x then v else lookupScore rest x

/-- The reciprocal-rank sum `Σ 1/(k + rank + 1)` over the positions of `x` in
a ranked list, ranks counted from `rank`. -/
def rankSum (kRrf : Nat) : List Int → Nat → Int → ℚ
  | [], _, _ => 0
  | sid :: rest, rank, x =>
    (if sid = x then 1 / ((kRrf : ℚ) + rank + 1) else 0) + rankSum kRrf rest (rank + 1) x

/-! ### The retrieval cascade of `Graph_RAG_new_tool` -/

/-- One hit of `smart_semantic_search`, already tagged with its type. -/
structure SemHit where
  isAct : Bool
  id : Int
  deriving Repr, DecidableEq

/-- `list(dict.fromkeys(xs))`: deduplicate keeping first occurrences. -/
def dedupFirstAux : List Int → List Int → List Int
  | _, [] => []
  | seen, x :: xs =>
    if x ∈ seen then dedupFirstAux seen xs else x :: dedupFirstAux (x :: seen) xs

/-- `list(dict.fromkeys(xs))`. -/
def dedupFirst (xs : List Int) : List Int := dedupFirstAux [] xs

/-- The inputs of one `Graph_RAG_new_tool` run.  The external searches and
database queries are oracles: each field records what the corresponding
call would return, in order. -/
structure RagInputs where
  /-- `extract_article_id(query)`. -/
  explicitArticleId : Option String
  /-- section ids of `vector_search_sections(query, ..., limit=50)`, ranked. -/
  vecResults : List Int
  /-- section ids of `fulltext_search_sections(query, limit=50)`, ranked. -/
  lexResults : List Int
  /-- rows of the Fallback-1 exact `section_id` query. -/
  directIdMatches : List Int
  /-- merged ranked hits of `smart_semantic_search(query, limit=50)`. -/
  semResults : List SemHit
  /-- rows of the Fallback-2 act-to-sections expansion query. -/
  actExpandedSections : List Int
  /-- rows of the Fallback-3 fuzzy title query. -/
  titleMatchSections : List Int
  deriving Repr, DecidableEq

/-- The outcome of the cascade: the chosen section ids, and whether each
fallback tier executed (ran its search / database query). -/
structure RagOutcome where
  ids : List Int
  fb1Ran : Bool
  fb2Ran : Bool
  fb3Ran : Bool
  deriving Repr, DecidableEq

/-- The section-selection logic of `Graph_RAG_new_tool` (steps 1–4 plus the
three fallbacks), up to the point where `fused_section_ids` is final. -/
def ragPipeline (inp : RagInputs) : RagOutcome :=
  let fused0 := rrf_fuse inp.vecResults inp.lexResults 60 10
  let fb1Ran := fused0.isEmpty && inp.explicitArticleId.isSome
  let fused1 := if fb1Ran then inp.directIdMatches else fused0
  let fb2Ran := fused1.isEmpty
  let fused2 :=
    if fb2Ran then
      let secIdsFromSem := (inp.semResults.filter (fun h => !h.isAct)).map SemHit.id
      let actIds := (inp.semResults.filter (fun h => h.isAct)).map SemHit.id
      let secIdsFromSem :=
        secIdsFromSem ++ (if actIds.isEmpty then [] else inp.actExpandedSections)
      if secIdsFromSem.isEmpty then fused1 else (dedupFirst secIdsFromSem).take 10
    else fused1
  let fb3Ran := fused2.isEmpty
  let fused3 := if fb3Ran then inp.titleMatchSections else fused2
  ⟨fused3, fb1Ran, fb2Ran, fb3Ran⟩

/-! ### `06_enrich_graph.add_severity_scores` -/

/-- A Neo4j property value as tested by the severity Cypher:
absent (`NULL`), a string, or a number. -/
inductive NVal where
  | null
  | str (s : String)
  | num (n : Int)
  deriving Repr, DecidableEq

/-- The Cypher condition `v IS NOT NULL AND v <> ""`.  In Neo4j an inequality
between a number and a string is `true`, so numeric values pass. -/
def nvalPresent (v : NVal) : Bool :=
  match v with
  | .null => false
  | .str s => s ≠ ""
  | .num _ => true

/-- A `Penalty` node, with the two properties the severity pass inspects. -/
structure PenaltyNode where
  imprisonment : NVal
  fine_amount : NVal
  deriving Repr, DecidableEq

/-- The summand contributed by one penalty:
`CASE imprisonment THEN 2 ELSE 0 END + CASE fine_amount THEN 1 ELSE 0 END`. -/
def penaltyBase (p : PenaltyNode) : Int :=
  (if nvalPresent p.imprisonment then 2 else 0) +
  (if nvalPresent p.fine_amount then 1 else 0)

/-- `baseScore + numPens` of the severity Cypher for one section's penalty
collection. -/
def severityFormula (pens : List PenaltyNode) : Int :=
  (pens.map penaltyBase).sum + pens.length

/-- A `Section` node, restricted to what the severity pass touches. -/
structure SectionNode where
  penalties : List PenaltyNode
  severity_score : Option Int
  deriving Repr, DecidableEq

/-- One run of the `add_severity_scores` pass on one section: the Cypher
`MATCH`es only sections with at least one penalty and `SET`s their score. -/
def add_severity_scores (s : SectionNode) : SectionNode :=
  if s.penalties.isEmpty then s
  else { s with severity_score := some (severityFormula s.penalties) }

/-! ### `06_enrich_graph.add_role_cooccurrence` -/

/-- Edge state of the `CO_OCCURS_WITH` network: the `count` property keyed by
the ordered role-id pair, `none` when the relationship does not exist. -/
def CoState : Type := Nat × Nat → Option Nat

/-- The `MERGE ... ON CREATE SET c.count = 1 ON MATCH SET c.count = c.count + 1`
effect on one edge. -/
def bumpCount (o : Option Nat) : Option Nat := some (o.getD 0 + 1)

/-- The role pairs produced for one section: `collect(DISTINCT r)` then
`UNWIND × UNWIND` filtered by `id(r1) < id(r2)`. -/
def sectionPairs (roles : List Nat) : List (Nat × Nat) :=
  (roles.dedup.product roles.dedup).filter (fun p => p.1 < p.2)

/-- Processing one section of the co-occurrence pass: each of its pairs is
merged exactly once (the pair list has no duplicates). -/
def coStep (st : CoState) (roles : List Nat) : CoState :=
  fun p => if p ∈ sectionPairs roles then bumpCount (st p) else st p

/-- One run of the `add_role_cooccurrence` pass over the given sections (each
section is its list of mentioned role ids), in processing order. -/
def add_role_cooccurrence (secs : List (List Nat)) (st : CoState) : CoState :=
  secs.foldl coStep st

/-- The graph before the pass has ever run: no `CO_OCCURS_WITH` edges. -/
def emptyCo : CoState := fun _ => none

/-! ### `04_enrich_llm_hybrid.merge_semantics`: role merging -/

/-- Python string `<=`: lexicographic comparison of code points. -/
def charListLeB : List Char → List Char → Bool
  | u :: us, v :: vs =>
    if u.toNat < v.toNat then true
    else if v.toNat < u.toNat then false
    else charListLeB us vs
  | [], _ => true
  | _, _ => false

/-- Python string `<=`. -/
def strLeB (a b : String) : Bool := charListLeB a.data b.data

/-- The role-name merge of `merge_semantics`:
`sorted(set(sec["roles"]) | {r.strip() for r in llm_result["roles"]})`.
A Python `set` then `sorted` yields the ascending list of the distinct
member strings, in code-point order. -/
def merge_roles (existing llmRoles : List String) : List String :=
  ((existing ++ llmRoles.map pyStrip).dedup).insertionSort (fun a b => strLeB a b = true)

/-! ### `04_enrich_llm_hybrid.call_llm_batch`: response handling -/

/-- A Python value as returned by `json.loads`: `None`, bool, int, str,
list or dict (dict fields in insertion order). -/
inductive PyVal where
  | pnone
  | pbool (b : Bool)
  | pint (n : Int)
  | pstr (s : String)
  | plist (xs : List PyVal)
  | pdict (fields : List (String × PyVal))

mutual

/-- Python `==` on parsed JSON values (structural). -/
def PyVal.beq : PyVal → PyVal → Bool
  | .plist xs, .plist ys => PyVal.beqList xs ys
  | .pdict xs, .pdict ys => PyVal.beqDict xs ys
  | .pnone, .pnone => true
  | .pbool a, .pbool b => a == b
  | .pint a, .pint b => a == b
  | .pstr a, .pstr b => a == b
  | _, _ => false

/-- Python `==` on parsed lists, elementwise. -/
def PyVal.beqList : List PyVal → List PyVal → Bool
  | u :: us, v :: vs => PyVal.beq u v && PyVal.beqList us vs
  | [], [] => true
  | _, _ => false

/-- Python `==` on parsed dict field lists, fieldwise. -/
def PyVal.beqDict : List (String × PyVal) → List (String × PyVal) → Bool
  | (a, u) :: us, (b, v) :: vs => a == b && PyVal.beq u v && PyVal.beqDict us vs
  | [], [] => true
  | _, _ => false

end

/-- `item.get(key)` on a JSON object (with `json.loads` a JSON `null` value
arrives as Python `None`, indistinguishable from an absent key, so both map
to `none`). -/
def pyGet (fields : List (String × PyVal)) (k : String) : Option PyVal :=
  match fields.lookup k with
  | none => none
  | some .pnone => none
  | some v => some v

/-- Python truthiness of a JSON value (`x or []` replaces falsy `x`). -/
def pyTruthy (j : PyVal) : Bool :=
  match j with
  | .pnone => false
  | .pbool b => b
  | .pint n => n ≠ 0
  | .pstr s => s ≠ ""
  | .plist xs => !xs.isEmpty
  | .pdict fs => !fs.isEmpty

/-- `x or []`. -/
def pyOrList (x : Option PyVal) : PyVal :=
  match x with
  | some v => if pyTruthy v then v else .plist []
  | none => .plist []

/-- Whether a JSON value is an array (`isinstance(parsed, list)`). -/
def pyIsList (j : PyVal) : Bool :=
  match j with
  | .plist _ => true
  | _ => false

/-- The per-section extraction record built by `call_llm_batch`. -/
structure Extraction where
  roles : PyVal
  obligations : PyVal
  powers : PyVal
  penalties : PyVal
  rights : PyVal

/-- `out[idx] = value` on an insertion-ordered dict. -/
def dictSet (out : List (PyVal × Extraction)) (k : PyVal) (v : Extraction) :
    List (PyVal × Extraction) :=
  match out with
  | [] => [(k, v)]
  | (k', v') :: rest =>
    if PyVal.beq k' k then (k, v) :: rest else (k', v') :: dictSet rest k v

/-- Processing of one parsed element in the `for item in parsed` loop:
non-objects are skipped, objects without a usable `section_index` are
skipped, otherwise the five lists are read with an `or []` default. -/
def llmBatchItem (out : List (PyVal × Extraction)) (item : PyVal) :
    List (PyVal × Extraction) :=
  match item with
  | .pdict fields =>
    match pyGet fields "section_index" with
    | none => out
    | some idx =>
      dictSet out idx
        { roles := pyOrList (pyGet fields "roles")
          obligations := pyOrList (pyGet fields "obligations")
          powers := pyOrList (pyGet fields "powers")
          penalties := pyOrList (pyGet fields "penalties")
          rights := pyOrList (pyGet fields "rights") }
  | _ => out

/-- The response handling of `call_llm_batch` from the LLM response onwards:
`none` stands for every total-failure path (API exception, empty or
non-string content, `json.loads` error) and returns the empty dict; a
parsed non-array value is wrapped into a one-element list; then the items
are folded into the output dict. -/
def call_llm_batch_handle (resp : Option PyVal) : List (PyVal × Extraction) :=
  match resp with
  | none => []
  | some parsed =>
    let items := match parsed with
      | .plist xs => xs
      | j => [j]
    items.foldl llmBatchItem []

/-! ### `02_parse_structure.py`: the section segmenter

The two section-header regexes and the chapter regex are embedded as
deterministic matchers over the character list (greedy subpatterns of these
regexes never need backtracking on newline-free line text; `\d`, `[A-Za-z]`
and `\w` are modelled at their ASCII core). -/

/-- `[A-Za-z]`. -/
def isAsciiLetter (c : Char) : Bool :=
  ('A' ≤ c && c ≤ 'Z') || ('a' ≤ c && c ≤ 'z')

/-- `\d` (ASCII digits). -/
def isAsciiDigit (c : Char) : Bool := '0' ≤ c && c ≤ '9'

/-- `\w` (ASCII core: letters, digits, underscore). -/
def isWordChar (c : Char) : Bool := isAsciiLetter c || isAsciiDigit c || c = '_'

/-- Consume an exact literal prefix, returning the remaining characters. -/
def dropLit : List Char → List Char → Option (List Char)
  | [], cs => some cs
  | l :: ls, c :: cs => if c = l then dropLit ls cs else none
  | _ :: _, [] => none

/-- Consume `\s+`: at least one whitespace character. -/
def dropWsPlus (cs : List Char) : Option (List Char) :=
  if (cs.takeWhile isPyWs).isEmpty then none else some (cs.dropWhile isPyWs)

/-- Consume `\d+[A-Za-z]?`, the section-number group, returning it together
with the remaining characters. -/
def takeSectionNum (cs : List Char) : Option (List Char × List Char) :=
  let digits := cs.takeWhile isAsciiDigit
  if digits.isEmpty then none
  else
    match cs.dropWhile isAsciiDigit with
    | c :: rest =>
      if isAsciiLetter c then some (digits ++ [c], rest)
      else some (digits, c :: rest)
    | [] => some (digits, [])

/-- `^Section\s+(\d+[A-Za-z]?)\.?\s*(.*)$` applied to a line, returning
`(group 1, group 2)`. -/
def matchSectionStyle (cs : List Char) : Option (String × String) :=
  match dropLit "Section".data cs with
  | none => none
  | some rest₀ =>
    match dropWsPlus rest₀ with
    | none => none
    | some rest₁ =>
      match takeSectionNum rest₁ with
      | none => none
      | some (num, rest₂) =>
        let rest₃ := match rest₂ with
          | '.' :: r => r
          | r => r
        let rest₄ := rest₃.dropWhile isPyWs
        some (⟨num⟩, ⟨rest₄⟩)

/-- `^(\d+[A-Za-z]?)\.\s+(.*)$` applied to a line, returning
`(group 1, group 2)`. -/
def matchBareNumStyle (cs : List Char) : Option (String × String) :=
  match takeSectionNum cs with
  | none => none
  | some (num, rest₀) =>
    match rest₀ with
    | '.' :: rest₁ =>
      match dropWsPlus rest₁ with
      | none => none
      | some rest₂ => some (⟨num⟩, ⟨rest₂⟩)
    | _ => none

/-- `detect_section_header` from `02_parse_structure.py`: the patterns are
tried in order, first match wins; the heading group is stripped. -/
def detect_section_header (text : String) : Option (String × String) :=
  match matchSectionStyle text.data with
  | some (num, heading) => some (num, pyStrip heading)
  | none =>
    match matchBareNumStyle text.data with
    | some (num, heading) => some (num, pyStrip heading)
    | none => none

/-- `[IVXLC]`. -/
def isRomanChar (c : Char) : Bool :=
  c = 'I' || c = 'V' || c = 'X' || c = 'L' || c = 'C'

/-- `^CHAPTER\s+([IVXLC]+)\b` applied to a line (`detect_chapter`), returning
the roman-numeral group.  The word boundary after the greedy `[IVXLC]+`
fails for every backtracking split exactly when the character after the
maximal roman run is a word character. -/
def detect_chapter (text : String) : Option String :=
  match dropLit "CHAPTER".data text.data with
  | none => none
  | some rest₀ =>
    match dropWsPlus rest₀ with
    | none => none
    | some rest₁ =>
      let roman := rest₁.takeWhile isRomanChar
      if roman.isEmpty then none
      else
        match rest₁.dropWhile isRomanChar with
        | [] => some ⟨roman⟩
        | c :: _ => if isWordChar c then none else some ⟨roman⟩

/-- One input line record (`page`, `line_index`, `text`). -/
structure LineRec where
  page : Nat
  line_index : Nat
  text : String
  deriving Repr, DecidableEq

/-- The emitted section record of `flush_section` (the constant act-level
fields `act_id`, `act_year`, `act_seq` are carried through the `actId`
parameter; `pages` is `sorted(set(...))`; `raw_lines` holds the buffered
line records). -/
structure SectionOut where
  section_id : String
  chapter : Option String
  sectionNum : String
  citation : String
  heading : Option String
  text : String
  pages : List Nat
  raw_lines : List LineRec
  deriving Repr, DecidableEq

/-- The mutable parser state: `current_chapter`, `current_section`,
`current_heading`, and the line buffer (`pages` and `raw_lines` are kept in
lockstep with `buffer` by the source, so they are derived from it here). -/
structure SegState where
  chapter : Option String
  sec : Option String
  heading : String
  buffer : List LineRec
  deriving Repr, DecidableEq

/-- The initial parser state of `process_act`. -/
def initSegState : SegState := ⟨none, none, "", []⟩

/-- `flush_section`: emit the section in progress, unless there is none or
its accumulated text is blank. -/
def flushSection (actId : String) (st : SegState) : List SectionOut :=
  match st.sec with
  | none => []
  | some num =>
    let text := String.intercalate "\n" (st.buffer.map LineRec.text)
    if pyStrip text = "" then []
    else
      [{ section_id := actId ++ "-sec-" ++ num
         chapter := st.chapter
         sectionNum := num
         citation := "Section " ++ num
         heading := if st.heading = "" then none else some st.heading
         text := text
         pages := ((st.buffer.map LineRec.page).dedup).insertionSort (· ≤ ·)
         raw_lines := st.buffer }]

/-- One iteration of the parser loop: the records it emits and the new
state.  Chapter headers update the chapter; section headers flush and
restart; other lines are ignored before the first section and buffered
afterwards. -/
def segStep (actId : String) (st : SegState) (l : LineRec) :
    List SectionOut × SegState :=
  match detect_chapter l.text with
  | some ch => ([], { st with chapter := some ch })
  | none =>
    match detect_section_header l.text with
    | some (num, heading) =>
      (flushSection actId st, { st with sec := some num, heading := heading, buffer := [] })
    | none =>
      match st.sec with
      | none => ([], st)
      | some _ => ([], { st with buffer := st.buffer ++ [l] })

/-- Run the parser loop from a given state, with the trailing flush. -/
def segRun (actId : String) (st : SegState) : List LineRec → List SectionOut
  | [] => flushSection actId st
  | l :: ls =>
    let (em, st') := segStep actId st l
    em ++ segRun actId st' ls

/-- `process_act` from `02_parse_structure.py`, restricted to one document's
ordered line records: the ordered list of emitted section records. -/
def process_act (actId : String) (lines : List LineRec) : List SectionOut :=
  segRun actId initSegState lines

/-- A section record without its chapter field, for comparisons that ignore
the `current_chapter` state. -/
def dropChapter (r : SectionOut) :
    String × String × String × Option String × String × List Nat × List LineRec :=
  (r.section_id, r.sectionNum, r.citation, r.heading, r.text, r.pages, r.raw_lines)

/-! ## Theorems -/

/-- The truncation marker has 18 characters. -/
theorem pyLen_marker : pyLen " ...[TRUNCATED]..." = 18 := by decide

/-- C10: `_trim` returns `None` exactly when its input is `None`; a string
whose stripped form has at most `max_chars` characters comes back stripped
and otherwise unchanged; a longer one comes back as the first `max_chars`
stripped characters followed by `" ...[TRUNCATED]..."`; hence every
non-`None` output has at most `max_chars + 18` characters. -/
theorem trim_spec (t : String) (m : Nat) :
    (∀ o : Option String, pyTrim o m = none ↔ o = none) ∧
    (pyLen (pyStrip t) ≤ m → pyTrim (some t) m = some (pyStrip t)) ∧
    (m < pyLen (pyStrip t) →
      pyTrim (some t) m = some (pySlice (pyStrip t) m ++ " ...[TRUNCATED]...")) ∧
    (∀ r, pyTrim (some t) m = some r → pyLen r ≤ m + 18) := by
  refine ⟨?_, ?_, ?_, ?_⟩
  · intro o
    cases o with
    | none => simp [pyTrim]
    | some s =>
      simp only [pyTrim]
      split <;> simp
  · intro h
    simp [pyTrim, h]
  · intro h
    simp [pyTrim, Nat.not_le.mpr h]
  · intro r hr
    simp only [pyTrim] at hr
    split at hr
    · cases hr
      omega
    · cases hr
      have h18 : pyLen (pySlice (pyStrip t) m ++ " ...[TRUNCATED]...") =
          (pySlice (pyStrip t) m).data.length + 18 := by
        simp [pyLen, String.data_append]
      rw [h18]
      have : (pySlice (pyStrip t) m).data.length ≤ m := by
        simp [pySlice]
      omega

/-- Witness for C10 at a concrete long input. -/
theorem trim_spec_witness :
    pyTrim (some "abcdefghijkl") 5 = some (pySlice (pyStrip "abcdefghijkl") 5 ++ " ...[TRUNCATED]...") :=
  (trim_spec "abcdefghijkl" 5).2.2.1 (by decide)

/-- C9: when the raw citation, act title and act year are all present the
formatted citation is `"<citation> of <act title>, <act year>"`; with the
year absent but citation and title present it is
`"<citation> of <act title>"`; otherwise it degrades to the raw citation.
The Madras 1851 example renders exactly as the spec says. -/
theorem formatted_citation_spec :
    (∀ c t : String, ∀ y : Int, c ≠ "" → t ≠ "" → y ≠ 0 →
      formattedCitation (some c) (some t) (some y) =
        some (c ++ " of " ++ t ++ ", " ++ toString y)) ∧
    (∀ c t : String, c ≠ "" → t ≠ "" →
      formattedCitation (some c) (some t) none = some (c ++ " of " ++ t)) ∧
    (∀ (c t : Option String) (y : Option Int),
      ¬(truthyStr c = true ∧ truthyStr t = true) → formattedCitation c t y = c) ∧
    formattedCitation (some "Section 10") (some "THE MADRAS CITY LAND REVENUE ACT")
        (some 1851) =
      some "Section 10 of THE MADRAS CITY LAND REVENUE ACT, 1851" := by
  refine ⟨?_, ?_, ?_, by decide⟩
  · intro c t y hc ht hy
    simp [formattedCitation, truthyStr, truthyInt, hc, ht, hy]
  · intro c t hc ht
    simp [formattedCitation, truthyStr, truthyInt, hc, ht]
  · intro c t y h
    have : (truthyStr c && truthyStr t) = false := by
      cases hc : truthyStr c <;> cases ht : truthyStr t <;> simp_all
    simp only [formattedCitation]
    rcases Bool.and_eq_false_iff.mp this with h' | h' <;> simp [h']

/-- Witness for C9 at the spec's Madras example. -/
theorem formatted_citation_witness :
    formattedCitation (some "Section 10") (some "THE MADRAS CITY LAND REVENUE ACT")
        (some 1851) =
      some ("Section 10" ++ " of " ++ "THE MADRAS CITY LAND REVENUE ACT" ++ ", " ++
        toString (1851 : Int)) :=
  formatted_citation_spec.1 "Section 10" "THE MADRAS CITY LAND REVENUE ACT" 1851
    (by decide) (by decide) (by decide)

/-- C7: the document text embedded into the sections collection depends only
on the act title (and its `name` fallback), heading, summary and body
text of a row; two rows agreeing on those fields — however much their
section id, section number, citation string or node id differ — produce
the identical embedded document. -/
theorem embedded_doc_spec (r₁ r₂ : SectionRow)
    (hT : r₁.actTitle = r₂.actTitle) (hN : r₁.actName = r₂.actName)
    (hH : r₁.heading = r₂.heading) (hS : r₁.summary = r₂.summary)
    (hX : r₁.text = r₂.text) :
    buildSectionDoc r₁ = buildSectionDoc r₂ := by
  simp [buildSectionDoc, hT, hN, hH, hS, hX]

/-- Witness for C7: two rows identical in the embedded fields but with
different ids, section numbers and citation strings give the same
document. -/
theorem embedded_doc_witness :
    buildSectionDoc
      ⟨112, some "THE X ACT", none, some 1900, some "9", some "A-sec-112", none,
        some "112", some "Section 112", some "H", some "S", some "T"⟩ =
    buildSectionDoc
      ⟨113, some "THE X ACT", none, some 1900, some "9", some "A-sec-113", none,
        some "113", some "Section 113", some "H", some "S", some "T"⟩ :=
  embedded_doc_spec _ _ rfl rfl rfl rfl rfl

/-- Updating one key of the score dict adds to exactly that key's score. -/
theorem lookupScore_rrfUpdate (scores : List (Int × ℚ)) (sid : Int) (inc : ℚ) (x : Int) :
    lookupScore (rrfUpdate scores sid inc) x =
      lookupScore scores x + (if sid = x then inc else 0) := by
  induction scores with
  | nil =>
    by_cases h : sid = x <;> simp [rrfUpdate, lookupScore, h]
  | cons kv rest ih =>
    obtain ⟨k, v⟩ := kv
    by_cases hk : k = sid
    · subst hk
      by_cases hx : k = x <;> simp [rrfUpdate, lookupScore, hx]
    · by_cases hx : k = x
      · subst hx
        have hsx : ¬ sid = k := fun h => hk h.symm
        simp [rrfUpdate, hk, lookupScore, hsx]
      · simp [rrfUpdate, hk, lookupScore, hx, ih]

/-- One enumeration loop of `rrf_fuse` adds each id's reciprocal-rank sum. -/
theorem lookupScore_rrfAdd (kRrf : Nat) (results : List Int) :
    ∀ (scores : List (Int × ℚ)) (rank : Nat) (x : Int),
      lookupScore (rrfAdd kRrf scores results rank) x =
        lookupScore scores x + rankSum kRrf results rank x := by
  induction results with
  | nil =>
    intro scores rank x
    simp [rrfAdd, rankSum]
  | cons s rest ih =>
    intro scores rank x
    simp only [rrfAdd, rankSum]
    rw [ih, lookupScore_rrfUpdate]
    by_cases h : s = x
    · simp only [h, if_pos rfl]
      ring
    · simp [h]

/-- C1: the fused score of an id is the sum, over each of the two ranked
lists, of `1/(60 + rank + 1)` at each 0-based position where the id
occurs — an id present in only one list gets its partial score from that
list alone; the result is the score items in stable descending score
order (the semantics of Python's stable `sorted` with `reverse=True`),
truncated to the top 10 ids.  On vector ranks `[A,B,C] = [1,2,3]` and
lexical ranks `[B,A,D] = [2,1,4]`: A scores `1/61 + 1/62`, B scores
`1/62 + 1/61` (a tie, broken by the original stable dict order A before
B), C scores `1/63`, D scores `1/63`, giving `[A,B,C,D]`. -/
theorem rrf_fuse_spec :
    (∀ (vec lex : List Int) (x : Int),
      lookupScore (rrfScores vec lex 60) x = rankSum 60 vec 0 x + rankSum 60 lex 0 x) ∧
    (∀ vec lex : List Int,
      List.Sorted (fun a b : Int × ℚ => b.2 ≤ a.2) (rrfSorted vec lex 60) ∧
      (rrfSorted vec lex 60).Perm (rrfScores vec lex 60) ∧
      rrf_fuse vec lex 60 10 = ((rrfSorted vec lex 60).map Prod.fst).take 10) ∧
    (rrf_fuse [1, 2, 3] [2, 1, 4] 60 10 = [1, 2, 3, 4] ∧
      lookupScore (rrfScores [1, 2, 3] [2, 1, 4] 60) 1 = 1/61 + 1/62 ∧
      lookupScore (rrfScores [1, 2, 3] [2, 1, 4] 60) 2 = 1/62 + 1/61 ∧
      lookupScore (rrfScores [1, 2, 3] [2, 1, 4] 60) 3 = 1/63 ∧
      lookupScore (rrfScores [1, 2, 3] [2, 1, 4] 60) 4 = 1/63) := by
  refine ⟨?_, ?_, ?_, ?_, ?_, ?_, ?_⟩
  · intro vec lex x
    simp [rrfScores, lookupScore_rrfAdd, lookupScore]
  · intro vec lex
    haveI : IsTotal (Int × ℚ) (fun a b => b.2 ≤ a.2) := ⟨fun a b => le_total b.2 a.2⟩
    haveI : IsTrans (Int × ℚ) (fun a b => b.2 ≤ a.2) := ⟨fun a b c h₁ h₂ => le_trans h₂ h₁⟩
    exact ⟨List.sorted_insertionSort _ _, List.perm_insertionSort _ _, rfl⟩
  · norm_num [rrf_fuse, rrfSorted, rrfScores, rrfAdd, rrfUpdate,
      List.insertionSort, List.orderedInsert]
  · norm_num [rrfScores, rrfAdd, rrfUpdate, lookupScore]
  · norm_num [rrfScores, rrfAdd, rrfUpdate, lookupScore]
  · norm_num [rrfScores, rrfAdd, rrfUpdate, lookupScore]
  · norm_num [rrfScores, rrfAdd, rrfUpdate, lookupScore]

/-- Deduplicating a non-empty list and taking a positive prefix is non-empty. -/
theorem dedupFirst_take_ne_nil (x : Int) (xs : List Int) :
    (dedupFirst (x :: xs)).take 10 ≠ [] := by
  simp [dedupFirst, dedupFirstAux]

/-- C2: if the primary RRF fusion returns at least one id, none of the three
fallback tiers executes — even when an explicit locator was detected —
and the fused ids are the final evidence set; moreover each fallback tier
executes only when every earlier tier produced nothing. -/
theorem fallback_cascade_spec (inp : RagInputs) :
    (rrf_fuse inp.vecResults inp.lexResults 60 10 ≠ [] →
      (ragPipeline inp).fb1Ran = false ∧ (ragPipeline inp).fb2Ran = false ∧
      (ragPipeline inp).fb3Ran = false ∧
      (ragPipeline inp).ids = rrf_fuse inp.vecResults inp.lexResults 60 10) ∧
    ((ragPipeline inp).fb1Ran = true →
      rrf_fuse inp.vecResults inp.lexResults 60 10 = [] ∧
      inp.explicitArticleId.isSome = true) ∧
    ((ragPipeline inp).fb2Ran = true →
      rrf_fuse inp.vecResults inp.lexResults 60 10 = [] ∧
      (inp.explicitArticleId.isSome = true → inp.directIdMatches = [])) ∧
    ((ragPipeline inp).fb3Ran = true →
      rrf_fuse inp.vecResults inp.lexResults 60 10 = [] ∧
      (inp.explicitArticleId.isSome = true → inp.directIdMatches = []) ∧
      (inp.semResults.filter (fun h => !h.isAct)).map SemHit.id = [] ∧
      ((inp.semResults.filter (fun h => h.isAct)).map SemHit.id ≠ [] →
        inp.actExpandedSections = [])) := by
  cases hf : rrf_fuse inp.vecResults inp.lexResults 60 10 with
  | cons y ys =>
    refine ⟨fun _ => ?_, fun h => ?_, fun h => ?_, fun h => ?_⟩ <;>
      simp [ragPipeline, hf] at *
  | nil =>
    refine ⟨fun h => absurd rfl h, ?_, ?_, ?_⟩
    · intro h
      refine ⟨rfl, ?_⟩
      by_contra hs
      simp [ragPipeline, hf, Bool.not_eq_true, Option.not_isSome_iff_eq_none] at h hs
      simp [hs] at h
    · intro h
      refine ⟨rfl, fun hs => ?_⟩
      simp only [ragPipeline, hf] at h
      simp only [List.isEmpty_nil, Bool.true_and, hs, Bool.and_true] at h
      simpa [List.isEmpty_iff] using h
    · intro h
      simp only [ragPipeline, hf, List.isEmpty_nil, Bool.true_and] at h
      cases hs : inp.explicitArticleId.isSome with
      | true =>
        simp only [hs, if_true] at h
        cases hd : inp.directIdMatches with
        | cons d ds => simp [hd] at h
        | nil =>
          simp only [hd, List.isEmpty_nil, if_true] at h
          refine ⟨rfl, fun _ => rfl, ?_⟩
          cases hsec : (inp.semResults.filter (fun h => !h.isAct)).map SemHit.id with
          | cons s ss =>
            rw [hsec] at h
            simp only [List.cons_append, List.isEmpty_cons, if_false] at h
            exact absurd h (by simpa using dedupFirst_take_ne_nil s _)
          | nil =>
            rw [hsec] at h
            refine ⟨rfl, fun ha => ?_⟩
            cases hact : (inp.semResults.filter (fun h => h.isAct)).map SemHit.id with
            | nil => exact absurd hact ha
            | cons a as =>
              rw [hact] at h
              cases he : inp.actExpandedSections with
              | nil => rfl
              | cons e es =>
                rw [he] at h
                simp only [List.isEmpty_cons, List.nil_append] at h
                exact absurd h (by simpa using dedupFirst_take_ne_nil e es)
      | false =>
        simp only [hs, if_false] at h
        refine ⟨rfl, fun hss => by simp_all, ?_⟩
        cases hsec : (inp.semResults.filter (fun h => !h.isAct)).map SemHit.id with
        | cons s ss =>
          rw [hsec] at h
          simp only [List.cons_append, List.isEmpty_cons, if_false] at h
          exact absurd h (by simpa using dedupFirst_take_ne_nil s _)
        | nil =>
          rw [hsec] at h
          refine ⟨rfl, fun ha => ?_⟩
          cases hact : (inp.semResults.filter (fun h => h.isAct)).map SemHit.id with
          | nil => exact absurd hact ha
          | cons a as =>
            rw [hact] at h
            cases he : inp.actExpandedSections with
            | nil => rfl
            | cons e es =>
              rw [he] at h
              simp only [List.isEmpty_cons, List.nil_append] at h
              exact absurd h (by simpa using dedupFirst_take_ne_nil e es)

/-- Witness for C2: with a non-empty primary fusion and an explicit locator
present, no fallback runs and the fused ids are kept. -/
theorem fallback_cascade_witness :
    (ragPipeline ⟨some "24-A", [1], [], [7], [], [], []⟩).fb1Ran = false ∧
    (ragPipeline ⟨some "24-A", [1], [], [7], [], [], []⟩).fb2Ran = false ∧
    (ragPipeline ⟨some "24-A", [1], [], [7], [], [], []⟩).fb3Ran = false ∧
    (ragPipeline ⟨some "24-A", [1], [], [7], [], [], []⟩).ids = rrf_fuse [1] [] 60 10 :=
  (fallback_cascade_spec ⟨some "24-A", [1], [], [7], [], [], []⟩).1
    (by simp [rrf_fuse, rrfSorted, rrfScores, rrfAdd, rrfUpdate, List.insertionSort])

/-- The severity pass never changes a section's penalties. -/
theorem add_severity_scores_penalties (s : SectionNode) :
    (add_severity_scores s).penalties = s.penalties := by
  unfold add_severity_scores
  split <;> rfl

/-- Iterating the severity pass never changes a section's penalties. -/
theorem iterate_severity_penalties (m : Nat) (s : SectionNode) :
    (add_severity_scores^[m] s).penalties = s.penalties := by
  induction m generalizing s with
  | zero => rfl
  | succ m ih => rw [Function.iterate_succ_apply, ih, add_severity_scores_penalties]

/-- One run of the severity pass on a section with penalties sets the score. -/
theorem add_severity_scores_run (s : SectionNode) (hp : s.penalties ≠ []) :
    (add_severity_scores s).severity_score = some (severityFormula s.penalties) := by
  unfold add_severity_scores
  rw [if_neg (by simpa [List.isEmpty_iff] using hp)]

/-- C3: after the severity pass runs any positive number of times, a section
with at least one penalty carries exactly the score
`Σ over its penalties of ((2 if imprisonment present else 0) +
(1 if fine amount present else 0))` plus its penalty count: the pass SETs
the value, so every further run recomputes the same score. -/
theorem severity_score_spec (s : SectionNode) (n : Nat)
    (hp : s.penalties ≠ []) (hn : 1 ≤ n) :
    (add_severity_scores^[n] s).severity_score =
      some ((s.penalties.map (fun p =>
        (if nvalPresent p.imprisonment then (2 : Int) else 0) +
        (if nvalPresent p.fine_amount then (1 : Int) else 0))).sum + s.penalties.length) := by
  show _ = some (severityFormula s.penalties)
  obtain ⟨m, rfl⟩ : ∃ m, n = m + 1 := ⟨n - 1, by omega⟩
  clear hn
  induction m generalizing s with
  | zero =>
    rw [zero_add, Function.iterate_one]
    exact add_severity_scores_run s hp
  | succ m ih =>
    rw [Function.iterate_succ_apply]
    have hpen : (add_severity_scores s).penalties = s.penalties :=
      add_severity_scores_penalties s
    rw [ih (add_severity_scores s) (by rw [hpen]; exact hp), hpen]

/-- Witness for C3: a section with one penalty (imprisonment and fine both
present), scored by two runs of the pass. -/
theorem severity_score_witness :
    (add_severity_scores^[2]
        ⟨[⟨NVal.str "5 years", NVal.num 1000⟩], none⟩).severity_score =
      some ((([⟨NVal.str "5 years", NVal.num 1000⟩] : List PenaltyNode).map (fun p =>
        (if nvalPresent p.imprisonment then (2 : Int) else 0) +
        (if nvalPresent p.fine_amount then (1 : Int) else 0))).sum +
        ([⟨NVal.str "5 years", NVal.num 1000⟩] : List PenaltyNode).length) :=
  severity_score_spec ⟨[⟨NVal.str "5 years", NVal.num 1000⟩], none⟩ 2
    (by simp) (by omega)

/-- Value of the co-occurrence pass at one edge: the old value incremented by
the number of processed sections that mention the pair, created at `1` on
the first co-occurrence. -/
theorem coRun_lookup (secs : List (List Nat)) :
    ∀ (st : CoState) (p : Nat × Nat),
      add_role_cooccurrence secs st p =
        if secs.countP (fun l => decide (p ∈ sectionPairs l)) = 0 then st p
        else some ((st p).getD 0 + secs.countP (fun l => decide (p ∈ sectionPairs l))) := by
  induction secs with
  | nil =>
    intro st p
    simp [add_role_cooccurrence]
  | cons sec rest ih =>
    intro st p
    have hstep : add_role_cooccurrence (sec :: rest) st =
        add_role_cooccurrence rest (coStep st sec) := rfl
    rw [hstep, ih]
    by_cases hm : p ∈ sectionPairs sec
    · have hc : (sec :: rest).countP (fun l => decide (p ∈ sectionPairs l)) =
          rest.countP (fun l => decide (p ∈ sectionPairs l)) + 1 := by
        simp [List.countP_cons, hm]
      have hcs : coStep st sec p = some ((st p).getD 0 + 1) := by
        simp [coStep, hm, bumpCount]
      rw [hc, hcs]
      by_cases hn : rest.countP (fun l => decide (p ∈ sectionPairs l)) = 0
      · simp [hn]
      · rw [if_neg hn, if_neg (by omega)]
        simp only [Option.getD_some, Option.some.injEq]
        omega
    · have hc : (sec :: rest).countP (fun l => decide (p ∈ sectionPairs l)) =
          rest.countP (fun l => decide (p ∈ sectionPairs l)) := by
        simp [List.countP_cons, hm]
      have hcs : coStep st sec p = st p := by
        simp [coStep, hm]
      rw [hc, hcs]

/-- A pair is produced for a section exactly when both roles are mentioned in
it and the ids are in increasing order. -/
theorem mem_sectionPairs (r₁ r₂ : Nat) (roles : List Nat) :
    (r₁, r₂) ∈ sectionPairs roles ↔ r₁ ∈ roles ∧ r₂ ∈ roles ∧ r₁ < r₂ := by
  simp [sectionPairs, List.mem_filter, List.mem_product, List.mem_dedup, and_assoc]

/-- C6 counterexample: re-running the co-occurrence pass does not leave the
counts unchanged.  Roles 1 and 2 are co-mentioned in `N = 1` section; the
first run sets the count to 1, but running the pass again on the
unchanged graph increments it to 2 ≠ 1, because the Cypher `MERGE` arm
`ON MATCH SET c.count = c.count + 1` adds to the existing edge. -/
theorem cooccurrence_rerun_counterexample :
    add_role_cooccurrence [[1, 2]] emptyCo (1, 2) = some 1 ∧
    add_role_cooccurrence [[1, 2]] (add_role_cooccurrence [[1, 2]] emptyCo) (1, 2) =
      some 2 := by
  exact ⟨by decide, by decide⟩

/-- C6 (amended): after one run of the co-occurrence pass on a graph with no
prior `CO_OCCURS_WITH` edges, the count for a role pair equals the number
`N` of sections co-mentioning both roles (absent when `N = 0`), and this
is independent of the order in which sections are processed; re-running
the pass on the unchanged graph however adds `N` again, giving `2·N`
rather than `N`. -/
theorem cooccurrence_amended_spec (secs secs' : List (List Nat)) (r₁ r₂ : Nat)
    (hlt : r₁ < r₂) (hperm : secs.Perm secs') :
    (add_role_cooccurrence secs emptyCo (r₁, r₂) =
      if secs.countP (fun l => decide (r₁ ∈ l ∧ r₂ ∈ l)) = 0 then none
      else some (secs.countP (fun l => decide (r₁ ∈ l ∧ r₂ ∈ l)))) ∧
    (add_role_cooccurrence secs' emptyCo (r₁, r₂) =
      add_role_cooccurrence secs emptyCo (r₁, r₂)) ∧
    (add_role_cooccurrence secs (add_role_cooccurrence secs emptyCo) (r₁, r₂) =
      if secs.countP (fun l => decide (r₁ ∈ l ∧ r₂ ∈ l)) = 0 then none
      else some (2 * secs.countP (fun l => decide (r₁ ∈ l ∧ r₂ ∈ l)))) := by
  have hpred : ∀ (ls : List (List Nat)),
      ls.countP (fun l => decide ((r₁, r₂) ∈ sectionPairs l)) =
        ls.countP (fun l => decide (r₁ ∈ l ∧ r₂ ∈ l)) := by
    intro ls
    refine List.countP_congr fun l _ => ?_
    simp only [decide_eq_true_eq, mem_sectionPairs]
    exact ⟨fun ⟨h₁, h₂, _⟩ => ⟨h₁, h₂⟩, fun ⟨h₁, h₂⟩ => ⟨h₁, h₂, hlt⟩⟩
  have h₁ : add_role_cooccurrence secs emptyCo (r₁, r₂) =
      if secs.countP (fun l => decide (r₁ ∈ l ∧ r₂ ∈ l)) = 0 then none
      else some (secs.countP (fun l => decide (r₁ ∈ l ∧ r₂ ∈ l))) := by
    rw [coRun_lookup, hpred]
    simp [emptyCo]
  refine ⟨h₁, ?_, ?_⟩
  · rw [coRun_lookup, coRun_lookup, hperm.countP_eq]
  · rw [coRun_lookup, hpred, h₁]
    by_cases hn : secs.countP (fun l => decide (r₁ ∈ l ∧ r₂ ∈ l)) = 0
    · simp only [if_pos hn]
    · simp only [if_neg hn, Option.getD_some, Option.some.injEq]
      omega

/-- Witness for C6 (amended): roles 1 and 2 co-mentioned in 2 of 3 sections,
checked against a genuine reordering of the sections. -/
theorem cooccurrence_amended_witness :
    add_role_cooccurrence [[1, 2], [3], [2, 1]] emptyCo (1, 2) =
      (if ([[1, 2], [3], [2, 1]] : List (List Nat)).countP
            (fun l => decide (1 ∈ l ∧ 2 ∈ l)) = 0 then none
       else some (([[1, 2], [3], [2, 1]] : List (List Nat)).countP
            (fun l => decide (1 ∈ l ∧ 2 ∈ l)))) :=
  (cooccurrence_amended_spec [[1, 2], [3], [2, 1]] [[3], [1, 2], [2, 1]] 1 2
    (by omega) (by decide)).1

/-- C4 counterexample: role deduplication is not case-normalized.  The
section already holds `"magistrate"`; the LLM result brings
`"Magistrate"`, which differs only in letter case, yet the merged role
list gains a second entry for it (the Python `set` union compares exact
strings). -/
theorem merge_roles_case_counterexample :
    merge_roles ["magistrate"] ["Magistrate"] = ["Magistrate", "magistrate"] ∧
    "Magistrate" ∉ (["magistrate"] : List String) ∧
    (merge_roles ["magistrate"] ["Magistrate"]).length = 2 := by
  exact ⟨by decide, by decide, by decide⟩

/-- C4 (amended): the merge deduplicates role names as an exact-string
(whitespace-stripped) set union, not a case-normalized one: the merged
list is duplicate-free, its members are exactly the existing names plus
the stripped LLM names, and an LLM name whose stripped form is already
present verbatim adds nothing — while case variants remain distinct
members. -/
theorem merge_roles_amended_spec (ex llm : List String) :
    (merge_roles ex llm).Nodup ∧
    (∀ s, s ∈ merge_roles ex llm ↔ s ∈ ex ∨ ∃ r ∈ llm, pyStrip r = s) ∧
    (∀ r, pyStrip r ∈ ex →
      ∀ s, s ∈ merge_roles ex (r :: llm) ↔ s ∈ merge_roles ex llm) := by
  have hmem : ∀ (l₁ l₂ : List String) (s : String),
      s ∈ merge_roles l₁ l₂ ↔ s ∈ l₁ ∨ ∃ r ∈ l₂, pyStrip r = s := by
    intro l₁ l₂ s
    simp [merge_roles, List.mem_insertionSort, List.mem_dedup, List.mem_append,
      List.mem_map]
  refine ⟨?_, hmem ex llm, ?_⟩
  · have hperm := List.perm_insertionSort (fun a b : String => strLeB a b = true)
      ((ex ++ llm.map pyStrip).dedup)
    exact hperm.symm.nodup (List.nodup_dedup _)
  · intro r hr s
    rw [hmem, hmem]
    constructor
    · rintro (h | ⟨r', hr', hs⟩)
      · exact Or.inl h
      · rcases List.mem_cons.mp hr' with hh | hh
        · exact Or.inl (by rw [← hs, hh]; exact hr)
        · exact Or.inr ⟨r', hh, hs⟩
    · rintro (h | ⟨r', hr', hs⟩)
      · exact Or.inl h
      · exact Or.inr ⟨r', List.mem_cons_of_mem _ hr', hs⟩

/-- Witness for C4 (amended): an exact duplicate of an existing role adds
nothing to the merged membership. -/
theorem merge_roles_amended_witness :
    "judge" ∈ merge_roles ["judge"] ("judge" :: ["clerk"]) ↔
      "judge" ∈ merge_roles ["judge"] ["clerk"] :=
  (merge_roles_amended_spec ["judge"] ["clerk"]).2.2 "judge" (by decide) "judge"

/-- C5 counterexample: a well-formed JSON *object* (not an array) is not
treated as a total batch failure: `call_llm_batch` wraps it into a
one-element list and extracts a result for its `section_index`, so the
batch result is non-empty. -/
theorem llm_batch_shape_counterexample :
    (call_llm_batch_handle (some (PyVal.pdict
        [("section_index", PyVal.pint 0), ("roles", PyVal.plist [PyVal.pstr "x"])]))).length = 1 ∧
    pyIsList (PyVal.pdict
        [("section_index", PyVal.pint 0), ("roles", PyVal.plist [PyVal.pstr "x"])]) = false := by
  exact ⟨rfl, rfl⟩

/-- C5 (amended): an unparseable (or non-string, or errored) response yields
the empty result for the whole batch and is handled, never fatal (the
handler is a total function); but a parsed value that is not a JSON
array is wrapped into a one-element array rather than rejected, and
within an array each malformed element (non-object, or object without a
usable `section_index`) is skipped individually, so partial results per
batch are possible. -/
theorem llm_batch_amended_spec :
    (call_llm_batch_handle none = []) ∧
    (∀ j : PyVal, pyIsList j = false →
      call_llm_batch_handle (some j) = call_llm_batch_handle (some (PyVal.plist [j]))) ∧
    (∀ (xs : List PyVal) (item : PyVal), llmBatchItem [] item = [] →
      call_llm_batch_handle (some (PyVal.plist (item :: xs))) =
        call_llm_batch_handle (some (PyVal.plist xs))) ∧
    (∀ fields, pyGet fields "section_index" = none →
      llmBatchItem [] (PyVal.pdict fields) = []) ∧
    (∀ (b : Bool) (n : Int) (s : String) (ys : List PyVal),
      llmBatchItem [] PyVal.pnone = [] ∧ llmBatchItem [] (PyVal.pbool b) = [] ∧
      llmBatchItem [] (PyVal.pint n) = [] ∧ llmBatchItem [] (PyVal.pstr s) = [] ∧
      llmBatchItem [] (PyVal.plist ys) = []) := by
  refine ⟨rfl, ?_, ?_, ?_, ?_⟩
  · intro j hj
    cases j <;> first | rfl | simp [pyIsList] at hj
  · intro xs item h
    simp [call_llm_batch_handle, h]
  · intro fields h
    simp [llmBatchItem, h]
  · intro b n s ys
    exact ⟨rfl, rfl, rfl, rfl, rfl⟩

/-- Witness for C5 (amended): a bare JSON number is processed as if it were
the one-element array containing it. -/
theorem llm_batch_amended_witness :
    call_llm_batch_handle (some (PyVal.pint 5)) =
      call_llm_batch_handle (some (PyVal.plist [PyVal.pint 5])) :=
  llm_batch_amended_spec.2.1 (PyVal.pint 5) rfl

/-- Unfolding one parser iteration. -/
theorem segRun_cons (actId : String) (st : SegState) (l : LineRec) (ls : List LineRec) :
    segRun actId st (l :: ls) =
      (segStep actId st l).1 ++ segRun actId (segStep actId st l).2 ls := rfl

/-- `flush_section` emits only sections whose accumulated text is non-blank. -/
theorem mem_flushSection (actId : String) (st : SegState) (r : SectionOut)
    (h : r ∈ flushSection actId st) : pyStrip r.text ≠ "" := by
  unfold flushSection at h
  rcases hsec : st.sec with _ | num
  · simp only [hsec] at h
    exact absurd h (List.not_mem_nil r)
  · simp only [hsec] at h
    by_cases hb : pyStrip (String.intercalate "\n" (st.buffer.map LineRec.text)) = ""
    · rw [if_pos hb] at h
      exact absurd h (List.not_mem_nil r)
    · rw [if_neg hb] at h
      rw [List.mem_singleton] at h
      subst h
      exact hb

/-- Every record emitted by the parser loop has non-blank text. -/
theorem segRun_text_nonblank (actId : String) :
    ∀ (lines : List LineRec) (st : SegState) (r : SectionOut),
      r ∈ segRun actId st lines → pyStrip r.text ≠ "" := by
  intro lines
  induction lines with
  | nil =>
    intro st r h
    exact mem_flushSection actId st r h
  | cons l ls ih =>
    intro st r h
    rw [segRun_cons] at h
    rcases List.mem_append.mp h with h' | h'
    · unfold segStep at h'
      split at h'
      · simp at h'
      · split at h'
        · exact mem_flushSection actId st r (by simpa using h')
        · split at h' <;> simp at h'
    · exact ih _ r h'

/-- With no section header anywhere and no section in progress, the parser
emits nothing. -/
theorem segRun_no_header (actId : String) :
    ∀ (lines : List LineRec) (st : SegState), st.sec = none →
      (∀ l ∈ lines, detect_section_header l.text = none) →
      segRun actId st lines = [] := by
  intro lines
  induction lines with
  | nil =>
    intro st hs _
    unfold segRun flushSection
    rw [hs]
  | cons l ls ih =>
    intro st hs hall
    have hl : detect_section_header l.text = none := hall l (List.mem_cons_self l ls)
    rw [segRun_cons]
    unfold segStep
    cases hc : detect_chapter l.text with
    | some ch =>
      simp only [hc, List.nil_append]
      exact ih _ hs (fun l' hl' => hall l' (List.mem_cons_of_mem _ hl'))
    | none =>
      simp only [hc, hl, hs, List.nil_append]
      exact ih st hs (fun l' hl' => hall l' (List.mem_cons_of_mem _ hl'))

/-- Flushing from states that agree except on the chapter gives the same
records up to the chapter field. -/
theorem flushSection_dropChapter (actId : String) (st₁ st₂ : SegState)
    (hsec : st₁.sec = st₂.sec) (hh : st₁.heading = st₂.heading)
    (hb : st₁.buffer = st₂.buffer) :
    (flushSection actId st₁).map dropChapter =
      (flushSection actId st₂).map dropChapter := by
  unfold flushSection
  rw [← hsec, ← hh, ← hb]
  cases hsc : st₁.sec with
  | none => simp only [hsc]
  | some num =>
    simp only [hsc]
    by_cases hbl : pyStrip (String.intercalate "\n" (st₁.buffer.map LineRec.text)) = ""
    · simp only [if_pos hbl, List.map_nil]
    · simp only [if_neg hbl]
      simp [dropChapter]

/-- Running the parser from states that agree except on the chapter gives the
same records up to the chapter field. -/
theorem segRun_dropChapter (actId : String) :
    ∀ (lines : List LineRec) (st₁ st₂ : SegState),
      st₁.sec = st₂.sec → st₁.heading = st₂.heading → st₁.buffer = st₂.buffer →
      (segRun actId st₁ lines).map dropChapter =
        (segRun actId st₂ lines).map dropChapter := by
  intro lines
  induction lines with
  | nil =>
    intro st₁ st₂ h1 h2 h3
    exact flushSection_dropChapter actId st₁ st₂ h1 h2 h3
  | cons l ls ih =>
    intro st₁ st₂ h1 h2 h3
    rw [segRun_cons, segRun_cons, List.map_append, List.map_append]
    unfold segStep
    cases hc : detect_chapter l.text with
    | some ch =>
      simp only [hc, List.map_nil, List.nil_append]
      exact ih _ _ (by simpa using h1) (by simpa using h2) (by simpa using h3)
    | none =>
      cases hh : detect_section_header l.text with
      | some val =>
        obtain ⟨num, hd⟩ := val
        simp only [hc, hh]
        rw [flushSection_dropChapter actId st₁ st₂ h1 h2 h3]
        rw [ih { st₁ with sec := some num, heading := hd, buffer := [] }
            { st₂ with sec := some num, heading := hd, buffer := [] } rfl rfl rfl]
      | none =>
        simp only [hc, hh]
        rw [← h1]
        cases hs : st₁.sec with
        | none =>
          simp only [List.map_nil, List.nil_append]
          exact ih st₁ st₂ h1 h2 h3
        | some n =>
          simp only [List.map_nil, List.nil_append]
          exact ih _ _ (by simp [h1]) (by simp [h2]) (by simp [h3])

/-- Lines preceding the first detected section header only ever move the
chapter state: running over `pre ++ post` equals running over `post` from
some chapter value. -/
theorem segRun_preheader (actId : String) :
    ∀ (pre post : List LineRec) (st : SegState), st.sec = none →
      (∀ l ∈ pre, detect_section_header l.text = none) →
      ∃ c : Option String,
        segRun actId st (pre ++ post) = segRun actId { st with chapter := c } post := by
  intro pre
  induction pre with
  | nil =>
    intro post st _ _
    exact ⟨st.chapter, rfl⟩
  | cons l pre ih =>
    intro post st hs hall
    have hl : detect_section_header l.text = none := hall l (List.mem_cons_self _ _)
    cases hc : detect_chapter l.text with
    | some ch =>
      have hstep : segRun actId st ((l :: pre) ++ post) =
          segRun actId { st with chapter := some ch } (pre ++ post) := by
        rw [List.cons_append, segRun_cons]
        unfold segStep
        simp only [hc, List.nil_append]
      obtain ⟨c, hcc⟩ := ih post { st with chapter := some ch } (by simpa using hs)
        (fun l' h' => hall l' (List.mem_cons_of_mem _ h'))
      exact ⟨c, hstep.trans hcc⟩
    | none =>
      have hstep : segRun actId st ((l :: pre) ++ post) =
          segRun actId st (pre ++ post) := by
        rw [List.cons_append, segRun_cons]
        unfold segStep
        simp only [hc, hl, hs, List.nil_append]
      obtain ⟨c, hcc⟩ := ih post st hs (fun l' h' => hall l' (List.mem_cons_of_mem _ h'))
      exact ⟨c, hstep.trans hcc⟩

/-- C8 counterexample: a `CHAPTER` heading line occurring before the first
detected section header does contribute to the emitted sections — it sets
the chapter recorded on them — so dropping it changes the output. -/
theorem segmenter_preheader_counterexample :
    (process_act "a" [⟨1, 0, "CHAPTER II"⟩, ⟨1, 1, "1. Heading"⟩, ⟨1, 2, "body"⟩]).map
        SectionOut.chapter = [some "II"] ∧
    (process_act "a" [⟨1, 1, "1. Heading"⟩, ⟨1, 2, "body"⟩]).map
        SectionOut.chapter = [none] ∧
    detect_section_header "CHAPTER II" = none := by
  exact ⟨by decide, by decide, by decide⟩

/-- C8 (amended): lines before the first detected section header contribute
nothing to any emitted section except through the chapter field (a
pre-header `CHAPTER` line still sets the chapter recorded on later
sections): dropping them leaves every emitted record unchanged in id,
number, citation, heading, text, pages and raw lines.  A section in
progress is emitted at flush only if its accumulated text is non-blank,
and a document with no detected section header produces the empty output
(section count 0) — the parser is a total function, so no crash. -/
theorem segmenter_amended_spec :
    (∀ (actId : String) (pre post : List LineRec),
      (∀ l ∈ pre, detect_section_header l.text = none) →
      (process_act actId (pre ++ post)).map dropChapter =
        (process_act actId post).map dropChapter) ∧
    (∀ (actId : String) (lines : List LineRec) (r : SectionOut),
      r ∈ process_act actId lines → pyStrip r.text ≠ "") ∧
    (∀ (actId : String) (lines : List LineRec),
      (∀ l ∈ lines, detect_section_header l.text = none) →
      process_act actId lines = []) := by
  refine ⟨?_, ?_, ?_⟩
  · intro actId pre post hall
    obtain ⟨c, hc⟩ := segRun_preheader actId pre post initSegState rfl hall
    unfold process_act
    rw [hc]
    exact segRun_dropChapter actId post _ initSegState rfl rfl rfl
  · intro actId lines r h
    exact segRun_text_nonblank actId lines initSegState r h
  · intro actId lines hall
    exact segRun_no_header actId lines initSegState rfl hall

/-- Witness for C8 (amended): a discarded preamble line leaves the emitted
records untouched up to the chapter field. -/
theorem segmenter_amended_witness :
    (process_act "a" ([⟨1, 0, "PREAMBLE"⟩] ++ [⟨1, 1, "1. Heading"⟩, ⟨1, 2, "body"⟩])).map
        dropChapter =
      (process_act "a" [⟨1, 1, "1. Heading"⟩, ⟨1, 2, "body"⟩]).map dropChapter :=
  segmenter_amended_spec.1 "a" [⟨1, 0, "PREAMBLE"⟩] [⟨1, 1, "1. Heading"⟩, ⟨1, 2, "body"⟩]
    (by decide)
